import Mathlib

/-!
# Verification of the cairpair-crawler recursive crawl-and-extract core

Shallow embedding of the Python sources `src/utils/data_utils.py`,
`src/utils/scraper_utils.py`, `src/utils/llm_utils.py` and `src/main.py`.

Modelling conventions:
* External collaborators (the browser fetch engine and every LLM call) are an
  abstract `Env` of pure functions, as §6 of the spec describes them.
* Python sets (`global_crawled_urls`, `seen_resource_identifiers`) are lists
  with set-style insertion (`addSet`); Python dicts keep insertion order, so
  `defaultdict(list)` becomes an association list.
* Python attribute access `getattr(obj, key, None)` is modelled by records of
  type `String → Attr`, where `Attr.null` stands for both "attribute missing"
  and "attribute is None"; truthiness follows Python for the value shapes that
  occur (None, strings, lists).
* Exceptions are an explicit `PyErr`; a call returns
  `Except PyErr result × CrawlState` because in-place mutations of the shared
  sets survive a Python exception.
* Recursion in `fetch_and_process_page` is driven by an explicit `fuel`
  argument; exhausted fuel is the distinguished error `PyErr.fuelExhausted`,
  which never occurs when `fuel > maxDepth - currentDepth`.
* Instrumentation: `fetchTrace` records every invocation of the fetch
  collaborator (`crawler.arun`) with the requested URL, and `rankerTrace`
  records every invocation of the secondary-link ranker with the page content
  it was given.  Nothing else is added to the source logic.
* Float arithmetic in `is_missing_too_many_fields` (`val_present / 10 < .5`)
  is modelled over `ℚ`; for the 11 possible numerators 0..10 the IEEE-double
  comparison and the rational comparison agree.
-/

/-- Python attribute value as seen by the completeness checks: absent/None,
a string, or a list (of strings; element type is irrelevant to the checks). -/
inductive Attr where
  | null : Attr
  | str : String → Attr
  | list : List String → Attr
deriving DecidableEq

/-- Python truthiness restricted to the value shapes of `Attr`. -/
def pyTruthy : Attr → Bool
  | Attr.null => false
  | Attr.str s => !(s == "")
  | Attr.list l => !l.isEmpty

/-- Python `len` on a (truthy) attribute value. -/
def pyLen : Attr → Nat
  | Attr.null => 0
  | Attr.str s => s.length
  | Attr.list l => l.length

/-- From `src/config.py`: `REQUIRED_KEYS`. -/
def REQUIRED_KEYS : List String :=
  ["name", "resource_type", "description", "source_url"]

/-- From `src/utils/data_utils.py`, `is_complete_resource`: returns `False` as
soon as `not value or value == ""` holds for some required key. -/
def is_complete_resource (record : String → Attr) (required_keys : List String) : Bool :=
  required_keys.all fun key => !(!pyTruthy (record key) || (record key == Attr.str ""))

/-- From `src/utils/data_utils.py`: the fixed `should_haves` field list of
`is_missing_too_many_fields`. -/
def shouldHaveKeys : List String :=
  ["location_state", "description", "time_slots", "age_range", "target_audience",
   "cost_details", "eligibility_criteria", "resource_format", "languages",
   "accessibility_features"]

/-- From `src/utils/data_utils.py`, `is_missing_too_many_fields`: counts the
`should_haves` fields with `value and len(value) > 0` and returns whether
`val_present / len(should_haves) * 1.0 < .5`.  The float comparison is exact
for the 11 possible numerators, so it is stated as the equivalent integer
comparison `2 * val_present < len(should_haves)`; the lemma
`is_missing_too_many_fields_iff` below recovers the fraction form. -/
def is_missing_too_many_fields (record : String → Attr) : Bool :=
  let val_present :=
    (shouldHaveKeys.filter fun key =>
      pyTruthy (record key) && decide (0 < pyLen (record key))).length
  decide (2 * val_present < shouldHaveKeys.length)

/-- The integer test of `is_missing_too_many_fields` equals the original
fraction-below-one-half test. -/
lemma is_missing_too_many_fields_iff (record : String → Attr) :
    is_missing_too_many_fields record = true ↔
      (((shouldHaveKeys.filter fun key =>
          pyTruthy (record key) && decide (0 < pyLen (record key))).length : ℚ) /
        (shouldHaveKeys.length : ℚ) < 1 / 2) := by
  rw [is_missing_too_many_fields]
  set c := (shouldHaveKeys.filter fun key =>
    pyTruthy (record key) && decide (0 < pyLen (record key))).length with hc
  have hlen : shouldHaveKeys.length = 10 := rfl
  rw [hlen, decide_eq_true_iff]
  constructor
  · intro h
    have h5 : c < 5 := by omega
    have h5q : (c : ℚ) < 5 := by exact_mod_cast h5
    push_cast
    rw [div_lt_iff₀ (by norm_num)]
    linarith
  · intro h
    push_cast at h
    rw [div_lt_iff₀ (by norm_num)] at h
    have h5q : (c : ℚ) < 5 := by linarith
    have h5 : c < 5 := by exact_mod_cast h5q
    omega

/-- From `src/utils/data_utils.py`, `is_duplicate_resource`. -/
def is_duplicate_resource (resource_identifier : String)
    (seen_resource_identifiers : List String) : Bool :=
  seen_resource_identifiers.contains resource_identifier

/-! ## The retry wrapper `safe_arun` (src/utils/scraper_utils.py lines 70-81) -/

/-- Result shape of the fetch collaborator, §6 of the spec:
`{success, url(canonical), markdown, errorMessage?}`. -/
structure FetchResult where
  success : Bool
  url : String
  markdown : Option String
  errorMessage : Option String
deriving DecidableEq

/-- The ASCII case table used to model Python `str.lower()`. -/
def asciiLowerPairs : List (Char × Char) :=
  [('A', 'a'), ('B', 'b'), ('C', 'c'), ('D', 'd'), ('E', 'e'), ('F', 'f'),
   ('G', 'g'), ('H', 'h'), ('I', 'i'), ('J', 'j'), ('K', 'k'), ('L', 'l'),
   ('M', 'm'), ('N', 'n'), ('O', 'o'), ('P', 'p'), ('Q', 'q'), ('R', 'r'),
   ('S', 's'), ('T', 't'), ('U', 'u'), ('V', 'v'), ('W', 'w'), ('X', 'x'),
   ('Y', 'y'), ('Z', 'z')]

/-- Lowercase one character as Python `str.lower()` does on ASCII. -/
def pyCharLower (c : Char) : Char :=
  ((asciiLowerPairs.lookup c).getD c)

/-- Python `s.lower()` (ASCII fragment; the rate-limit signature is ASCII). -/
def pyLower (s : String) : String :=
  ⟨s.data.map pyCharLower⟩

/-- Python `needle in hay` on strings: contiguous-substring containment. -/
def pyIn (needle hay : String) : Bool :=
  decide (needle.data <:+: hay.data)

/-- The exact rate-limit signature string of `safe_arun` (line 75), with its
original capitalisation. -/
def rateLimitNeedle : String :=
  "Rate limit reached for model `deepseek-r1-distill-llama-70b`"

deriving instance DecidableEq for Except

/-- Python exceptions that the embedded code can raise. -/
inductive PyErr where
  | attributeError : PyErr
  | typeError : PyErr
  | unboundLocal : PyErr
  | fuelExhausted : PyErr
deriving DecidableEq

/-- Loop of `safe_arun`: `i` is the 0-based attempt index already consumed,
`remaining` the attempts left, `waits` the instrumented sleep durations, and
`last` the result of the previous attempt (Python `result`, unbound before the
first iteration).  Mirrors lines 71-81 of `src/utils/scraper_utils.py`:
on success return; on a rate-limit match sleep `5 * (i + 1)` and continue;
on any other failure break; after the loop return the last result. -/
def safeArunGo (attempts : Nat → FetchResult) :
    Nat → Nat → List Nat → Option FetchResult →
    Except PyErr (FetchResult × Nat × List Nat)
  | i, 0, waits, last =>
    match last with
    | none => Except.error PyErr.unboundLocal
    | some r => Except.ok (r, i, waits)
  | i, Nat.succ remaining, waits, _ =>
    let r := attempts i
    if r.success then Except.ok (r, i + 1, waits)
    else if pyIn rateLimitNeedle (pyLower (r.errorMessage.getD "")) then
      safeArunGo attempts (i + 1) remaining (waits ++ [5 * (i + 1)]) (some r)
    else Except.ok (r, i + 1, waits)

/-- From `src/utils/scraper_utils.py` lines 70-81, `safe_arun`: the returned
triple is the final `CrawlResult`, the number of `crawler.arun` invocations
made, and the list of back-off sleeps performed.  With `retries = 0` the
Python function would raise `UnboundLocalError` on `return result`. -/
def safe_arun (attempts : Nat → FetchResult) (retries : Nat) :
    Except PyErr (FetchResult × Nat × List Nat) :=
  safeArunGo attempts 0 retries [] none

/-! ## Data model of the Recursive Page Processor (src/utils/scraper_utils.py) -/

/-- An extraction candidate (`CareResourceforLLM`): the required
`resource_name` plus attribute access for the completeness predicates. -/
structure Resource where
  resource_name : String
  attrs : String → Attr

/-- A record after the reclassification step of the per-resource loop
(lines 184-211): the fields the loop actually writes.  It stands for the
`new_resource.model_dump()` dict appended to the flat list and the buckets. -/
structure ProcessedResource where
  resource_name : String
  source_url : String
  source_origin : String
  resource_category : String
  resource_subcategory : String
  tag : Option String
deriving DecidableEq

/-- A `ResourceProvider`: the fields the orchestration reads or writes. -/
structure Provider where
  provider_name : Option String
  website : Option String
  resources : List ProcessedResource
deriving DecidableEq

/-- An entry of a `mergedByKey` bucket.  A healthy entry is a processed
record; `key s` is a bare field-name string, which is what
`list.extend(dict)` inserts (iterating the dict yields its keys). -/
inductive BucketEntry where
  | res : ProcessedResource → BucketEntry
  | key : String → BucketEntry
deriving DecidableEq

/-- The `existing_resources_dict` defaultdict: insertion-ordered association
list from resource identifier to its bucket. -/
abbrev RDict : Type := List (String × List BucketEntry)

/-- The field names of `CareResource.model_dump()` in declaration order
(src/models/resource.py): iterating the dump dict yields these strings. -/
def careResourceFieldNames : List String :=
  ["provider_name", "resource_name", "resource_category", "resource_subcategory",
   "tags", "location", "location_city", "location_state", "location_country",
   "zip_code", "contact_phone", "contact_email", "website", "description",
   "time_slots", "time_zone", "age_range", "target_audience", "cost_details",
   "eligibility_criteria", "languages", "accessibility_features",
   "resource_format", "dementia_types", "service_option", "source_last_updated",
   "source_url", "source_origin", "date_added_to_db", "date_last_reviewed"]

/-- Append an entry to the bucket of `k`, creating the bucket like a
`defaultdict(list)` when `k` is absent. -/
def dictAppend (d : RDict) (k : String) (e : BucketEntry) : RDict :=
  if d.any fun p => p.1 == k then
    d.map fun p => if p.1 == k then (p.1, p.2 ++ [e]) else p
  else d ++ [(k, [e])]

/-- Model of line 233, `existing_resources_dict[resource_identifier].extend(new_resource_dict)`:
extending a list with a dict iterates the dict, so the bucket of `k` gains the
dict KEYS as bare strings (defaultdict-creating the bucket when absent). -/
def dictExtendKeys (d : RDict) (k : String) (keys : List String) : RDict :=
  if d.any fun p => p.1 == k then
    d.map fun p => if p.1 == k then (p.1, p.2 ++ keys.map BucketEntry.key) else p
  else d ++ [(k, keys.map BucketEntry.key)]

/-- The external collaborators of §6, as deterministic oracles:
the fetch engine and the six LLM call sites.  `none` from an extraction
oracle is the `None` that `extract_with_llm`/classification return on any
LLM failure. -/
structure Env where
  fetch : String → FetchResult
  extractProvider : String → Option Provider
  extractResources : String → Option (List Resource)
  rankedUrls : String → Option (List String)
  classifyDetail : Resource → Option (String × String)
  classifyTags : Resource → Option String
  mergeLLM : List BucketEntry → String → Option Provider → Option (List ProcessedResource)

/-- From `src/utils/llm_utils.py`, `rank_pages_for_secondary_crawl`:
empty content or a failed/empty LLM ranking yields `[]`, otherwise at most
the first 5 ranked URLs. -/
def rank_pages_for_secondary_crawl (env : Env) (content : String) : List String :=
  if content == "" then []
  else
    match env.rankedUrls content with
    | none => []
    | some ranked => ranked.take 5

/-- The two shared mutable sets threaded through every recursive call, plus
the two instrumentation traces (`fetchTrace`: requested URL of each
`crawler.arun` invocation; `rankerTrace`: content of each ranker invocation). -/
structure CrawlState where
  globalCrawledUrls : List String
  seenResourceIdentifiers : List String
  fetchTrace : List String
  rankerTrace : List String
deriving DecidableEq

/-- Python `set.add`. -/
def addSet (l : List String) (x : String) : List String :=
  if x ∈ l then l else l ++ [x]

/-- Characters of the authority component: everything after `"://"`. -/
def afterScheme : List Char → Option (List Char)
  | [] => none
  | ':' :: '/' :: '/' :: rest => some rest
  | _ :: rest => afterScheme rest

/-- Characters up to the first `'/'`. -/
def takeUntilSlash : List Char → List Char
  | [] => []
  | c :: rest => if c = '/' then [] else c :: takeUntilSlash rest

/-- Python `urlparse(u).netloc` (scheme-and-authority fragment; enough for
`source_origin`, which no claim inspects): empty when the URL has no scheme,
otherwise the text between `"://"` and the next `'/'`. -/
def netlocOf (u : String) : String :=
  match afterScheme u.data with
  | none => ""
  | some rest => ⟨takeUntilSlash rest⟩

/-- The tuple returned by `fetch_and_process_page`:
`(existing_resources, provider, existing_resources_dict)`. -/
structure FAPResult where
  resources : List ProcessedResource
  provider : Option Provider
  resourcesDict : Option RDict
deriving DecidableEq

/-- Line 172 of `src/utils/scraper_utils.py`: the secondary-crawl trigger.
`resources` can never be Python `None` here (a `None` extraction raises at
line 170 first), so the live condition is emptiness, or some candidate that
is neither complete (with the DEFAULT `REQUIRED_KEYS` — the `required_keys`
parameter is not used here) nor missing-too-many-fields, and
`current_depth < max_depth`. -/
def secondaryCrawlCond (resources : List Resource) (currentDepth maxDepth : Nat) : Bool :=
  (resources.isEmpty ||
    !(resources.all fun r =>
        is_complete_resource r.attrs REQUIRED_KEYS || is_missing_too_many_fields r.attrs))
  && decide (currentDepth < maxDepth)

/-- Lines 172-175: when the trigger condition holds, invoke the ranker and
set `trigger_secondary_crawl`; otherwise `ranked_pages` stays `None`. -/
def rankerDecision (env : Env) (markdown : String) (resources : List Resource)
    (currentDepth maxDepth : Nat) : Option (List String) × Bool :=
  if secondaryCrawlCond resources currentDepth maxDepth then
    (some (rank_pages_for_secondary_crawl env markdown), true)
  else (none, false)

/-- The per-resource loop, lines 184-211.  Arguments: page `url` (stamped as
`source_url`), canonical `resultUrl` (its netloc is `source_origin`), the
remaining candidates, then the mutable `existing_resources_dict`,
`seen_resource_identifiers`, `existing_resources`, and the latest values of
the loop-local names `resource_identifier`/`new_resource_dict` (Python leaves
them unbound when the loop body never ran — `none` here).  A `None` from the
category classifier raises `AttributeError` at `cat_subscat.category`. -/
def processResourcesLoop (env : Env) (url resultUrl : String) :
    List Resource → RDict → List String → List ProcessedResource →
    Option (String × ProcessedResource) →
    Except PyErr (RDict × List String × List ProcessedResource ×
      Option (String × ProcessedResource))
  | [], dict, seen, flat, lastVars => Except.ok (dict, seen, flat, lastVars)
  | r :: rest, dict, seen, flat, _ =>
    match env.classifyDetail r with
    | none => Except.error PyErr.attributeError
    | some (cat, subcat) =>
      let tag := env.classifyTags r
      let newRes : ProcessedResource :=
        ⟨r.resource_name, url, netlocOf resultUrl, cat, subcat, tag⟩
      let dict1 := dictAppend dict r.resource_name (BucketEntry.res newRes)
      if is_duplicate_resource r.resource_name seen then
        processResourcesLoop env url resultUrl rest dict1 seen flat
          (some (r.resource_name, newRes))
      else
        processResourcesLoop env url resultUrl rest dict1 (seen ++ [r.resource_name])
          (flat ++ [newRes]) (some (r.resource_name, newRes))

/-- The secondary-crawl loop, lines 215-235, parameterised by the recursive
call.  Each iteration REBINDS `existing_resources_dict` to the third
component returned by the child; when the child found resources, line 233 runs: it raises
`UnboundLocalError` when this page extracted no resources of its own
(`resource_identifier` is unbound), raises `TypeError` when the rebound dict
is `None`, and otherwise extends the bucket of the stale identifier with the field
names of the stale `new_resource_dict`. -/
def processSecondaries
    (recurse : String → CrawlState → Except PyErr FAPResult × CrawlState)
    (lastVars : Option (String × ProcessedResource)) :
    List String → List ProcessedResource → Option RDict → CrawlState →
    Except PyErr (List ProcessedResource × Option RDict) × CrawlState
  | [], flat, dictOpt, st => (Except.ok (flat, dictOpt), st)
  | u :: rest, flat, _dictOpt, st =>
    match recurse u st with
    | (Except.error e, st1) => (Except.error e, st1)
    | (Except.ok child, st1) =>
      let dictOpt1 := child.resourcesDict
      if child.resources.isEmpty then
        processSecondaries recurse lastVars rest flat dictOpt1 st1
      else
        match lastVars with
        | none => (Except.error PyErr.unboundLocal, st1)
        | some (rid, _) =>
          match dictOpt1 with
          | none => (Except.error PyErr.typeError, st1)
          | some d =>
            processSecondaries recurse lastVars rest (flat ++ child.resources)
              (some (dictExtendKeys d rid careResourceFieldNames)) st1

/-- The Recursive Page Processor, `fetch_and_process_page`
(src/utils/scraper_utils.py lines 83-244).  Parameters follow the source
(the `crawler`, `css_selector`, `llm_strategy` and `session_id` arguments are
absorbed into `env.fetch`; `required_keys` is threaded but, as in the source,
never read).  `fuel` drives the structural recursion and is invisible to the
algorithm: any `fuel > maxDepth - currentDepth` behaves identically. -/
def fetch_and_process_page (env : Env) :
    Nat → String → List String → Nat → Nat → Nat →
    Option (List ProcessedResource) → Option RDict → Option Provider →
    CrawlState → Except PyErr FAPResult × CrawlState
  | 0, _, _, _, _, _, _, _, _, st => (Except.error PyErr.fuelExhausted, st)
  | Nat.succ fuel, url, required_keys, currentDepth, maxDepth, maxSecondaryLinks,
      existingResources0, existingResourcesDict0, existingProvider, st =>
    -- lines 121-124: default the caller-owned accumulators
    let existingResources := existingResources0.getD []
    let dict0 := existingResourcesDict0.getD []
    -- line 127: already crawled globally in this job?
    if url ∈ st.globalCrawledUrls then (Except.ok ⟨[], none, none⟩, st)
    -- line 131: exceeded maximum depth?
    else if maxDepth < currentDepth then (Except.ok ⟨[], none, none⟩, st)
    else
      -- lines 148-152: fetch through the retry wrapper
      match safe_arun (fun _ => env.fetch url) 3 with
      | Except.error e => (Except.error e, st)
      | Except.ok (result, aruns, _waits) =>
        -- line 154: record the CANONICAL url; the trace records each arun call
        let st1 : CrawlState :=
          { st with
            fetchTrace := st.fetchTrace ++ List.replicate aruns url,
            globalCrawledUrls := addSet st.globalCrawledUrls result.url }
        -- line 156: `if not result.success or not result.markdown`
        if !result.success || (result.markdown.getD "" == "") then
          (Except.ok ⟨[], none, none⟩, st1)
        else
          let md := result.markdown.getD ""
          -- lines 162-167: provider extraction at depth 0 only; a `None`
          -- provider raises AttributeError at `provider.website = result.url`
          match (if currentDepth = 0 then
                  match env.extractProvider md with
                  | none => Except.error PyErr.attributeError
                  | some p => Except.ok (some { p with website := some result.url })
                else Except.ok existingProvider : Except PyErr (Option Provider)) with
          | Except.error e => (Except.error e, st1)
          | Except.ok provider =>
            -- lines 169-170: a `None` extraction raises AttributeError at
            -- `care_resources.resources`
            match env.extractResources md with
            | none => (Except.error PyErr.attributeError, st1)
            | some resources =>
              -- lines 172-175
              let rd := rankerDecision env md resources currentDepth maxDepth
              let st2 := if rd.2 then
                  { st1 with rankerTrace := st1.rankerTrace ++ [md] }
                else st1
              -- lines 178-182: checkpoint write — external I/O, not modelled
              -- lines 184-211
              match processResourcesLoop env url result.url resources dict0
                  st2.seenResourceIdentifiers existingResources none with
              | Except.error e => (Except.error e, st2)
              | Except.ok (dict1, seen1, flat1, lastVars) =>
                let st3 := { st2 with seenResourceIdentifiers := seen1 }
                -- lines 213-235
                let rankedPages := rd.1.getD []
                let loopOut :=
                  if rd.2 && !rankedPages.isEmpty && decide (currentDepth < maxDepth) then
                    processSecondaries
                      (fun u s => fetch_and_process_page env fuel u required_keys
                        (currentDepth + 1) maxDepth maxSecondaryLinks none none
                        provider s)
                      lastVars (rankedPages.take maxSecondaryLinks) flat1
                      (some dict1) st3
                  else (Except.ok (flat1, some dict1), st3)
                match loopOut with
                | (Except.error e, st4) => (Except.error e, st4)
                | (Except.ok (flatF, dictF), st4) =>
                  -- lines 237-239
                  if flatF.isEmpty then (Except.ok ⟨[], provider, none⟩, st4)
                  else
                    -- lines 241-244: `provider.model_dump()` on `None` raises
                    match provider with
                    | none => (Except.error PyErr.attributeError, st4)
                    | some p =>
                      (Except.ok ⟨flatF, some { p with resources := flatF }, dictF⟩, st4)

/-- From `src/utils/llm_utils.py` lines 40-111, `dedupe_and_enrich_resources`:
`None` on empty input; on LLM success the enriched list (`or []` only converts
an empty result to `[]`, which `some` already is); on any exception the
`except` clause returns `None`.  The function itself never raises. -/
def dedupe_and_enrich_resources (env : Env) (resources : List BucketEntry)
    (key : String) (provider : Option Provider) : Option (List ProcessedResource) :=
  if resources.isEmpty then none
  else
    match env.mergeLLM resources key provider with
    | none => none
    | some enriched => some enriched

/-- Aggregate state of `crawl_resources` (src/main.py lines 57-125):
per-bucket merge outputs (each is `Option` because the merge can yield
`None`), the per-URL exceptions caught by the `except` clause of the driver,
the `crawled_urls` set owned by the driver, and the shared crawl state. -/
structure DriverOut where
  allResources : List (Option (List ProcessedResource))
  errors : List (String × PyErr)
  crawledUrls : List String
  state : CrawlState
deriving DecidableEq

/-- The driver loop of `crawl_resources`: pop a URL, skip empties and
already-crawled ones, invoke the Page Processor with the default arguments
(`current_depth = 0`, `max_depth = 1`, `max_secondary_links = 3`), catch any
exception, and fold each returned bucket through the merge engine.  A
non-empty result with a `None` dict raises at `resource_dict.items()`. -/
def crawlLoop (env : Env) (fuel : Nat) :
    List String → List String → List (Option (List ProcessedResource)) →
    List (String × PyErr) → CrawlState → DriverOut
  | [], crawled, acc, errs, st => ⟨acc, errs, crawled, st⟩
  | url :: rest, crawled, acc, errs, st =>
    if url == "" || url ∈ crawled then crawlLoop env fuel rest crawled acc errs st
    else
      let crawled1 := crawled ++ [url]
      match fetch_and_process_page env fuel url REQUIRED_KEYS 0 1 3 none none none st with
      | (Except.error e, st1) => crawlLoop env fuel rest crawled1 acc (errs ++ [(url, e)]) st1
      | (Except.ok r, st1) =>
        if r.resources.isEmpty then crawlLoop env fuel rest crawled1 acc errs st1
        else
          match r.resourcesDict with
          | none => crawlLoop env fuel rest crawled1 acc
              (errs ++ [(url, PyErr.attributeError)]) st1
          | some d =>
            let newRs := d.map fun p => dedupe_and_enrich_resources env p.2 p.1 r.provider
            crawlLoop env fuel rest crawled1 (acc ++ newRs) errs st1

/-- The Crawl Driver `crawl_resources` over a frontier of seed URLs, starting
from empty shared sets.  (Python iterates `set(start_urls)` in unspecified
order; the embedding fixes list order, which is immaterial to the claims.) -/
def crawl_resources (env : Env) (fuel : Nat) (startUrls : List String) : DriverOut :=
  crawlLoop env fuel startUrls [] [] [] ⟨[], [], [], []⟩

/-! ## Basic lemmas -/

lemma subset_addSet (l : List String) (x : String) : l ⊆ addSet l x := by
  unfold addSet; split
  · exact fun _ h => h
  · exact fun u h => List.mem_append_left _ h

lemma mem_addSet_self (l : List String) (x : String) : x ∈ addSet l x := by
  unfold addSet; split
  · assumption
  · exact List.mem_append_right _ (List.mem_singleton.mpr rfl)

lemma nodup_addSet (l : List String) (x : String) (h : l.Nodup) : (addSet l x).Nodup := by
  unfold addSet; split
  · exact h
  · exact List.Nodup.append h (List.nodup_singleton x) (by
      intro u hu hx
      rw [List.mem_singleton] at hx
      subst hx
      exact absurd hu (by assumption))

lemma lookup_snd_mem {β : Type} (l : List (Char × β)) (a : Char) (b : β)
    (h : l.lookup a = some b) : b ∈ l.map Prod.snd := by
  induction l with
  | nil => simp [List.lookup] at h
  | cons p rest ih =>
    obtain ⟨k, v⟩ := p
    rw [List.lookup] at h
    split at h
    · injection h with h
      subst h
      exact List.mem_map.mpr ⟨(k, v), List.mem_cons_self _ _, rfl⟩
    · exact List.mem_cons_of_mem _ (ih h)

lemma pyCharLower_ne_R (c : Char) : pyCharLower c ≠ 'R' := by
  unfold pyCharLower
  cases h : asciiLowerPairs.lookup c with
  | none =>
    simp only [Option.getD_none]
    intro hc
    subst hc
    exact absurd h (by decide)
  | some v =>
    simp only [Option.getD_some]
    intro hv
    subst hv
    have hm := lookup_snd_mem _ _ _ h
    have h2 : ∀ b ∈ asciiLowerPairs.map Prod.snd, b ≠ 'R' := by decide
    exact h2 _ hm rfl

/-- The haystack of line 75 is fully lowercased while the needle keeps its
capital letter, so the rate-limit test of `safe_arun` can never succeed. -/
lemma rate_limit_match_false (s : String) :
    pyIn rateLimitNeedle (pyLower s) = false := by
  unfold pyIn pyLower
  rw [decide_eq_false_iff_not]
  intro hinf
  have hR : 'R' ∈ rateLimitNeedle.data := by decide
  have hmem : 'R' ∈ s.data.map pyCharLower := hinf.subset hR
  rw [List.mem_map] at hmem
  obtain ⟨c, _, hc⟩ := hmem
  exact pyCharLower_ne_R c hc

/-- With the standard `retries = 3`, `safe_arun` makes exactly one `arun`
call, sleeps never, and returns the first attempt as is. -/
lemma safe_arun_three (attempts : Nat → FetchResult) :
    safe_arun attempts 3 = Except.ok (attempts 0, 1, []) := by
  simp only [safe_arun, safeArunGo, rate_limit_match_false, Bool.false_eq_true, if_false]
  cases h : (attempts 0).success <;> simp [h]

/-! ## Invariants of the recursive crawl -/

/-- Monotone evolution of the shared crawl state: the two shared sets only
grow, the instrumentation traces only get appended to, and set-characteristic
duplicate-freeness of `globallyCrawledUrls` is preserved. -/
def GrowsTo (st st1 : CrawlState) : Prop :=
  st.globalCrawledUrls ⊆ st1.globalCrawledUrls ∧
  st.seenResourceIdentifiers ⊆ st1.seenResourceIdentifiers ∧
  (∃ t, st1.fetchTrace = st.fetchTrace ++ t) ∧
  (∃ q, st1.rankerTrace = st.rankerTrace ++ q) ∧
  (st.globalCrawledUrls.Nodup → st1.globalCrawledUrls.Nodup)

lemma GrowsTo.rfl (st : CrawlState) : GrowsTo st st :=
  ⟨fun _ h => h, fun _ h => h, ⟨[], (List.append_nil _).symm⟩,
   ⟨[], (List.append_nil _).symm⟩, id⟩

lemma GrowsTo.trans {s1 s2 s3 : CrawlState} (hab : GrowsTo s1 s2) (h2 : GrowsTo s2 s3) :
    GrowsTo s1 s3 := by
  obtain ⟨a1, b1, ⟨t1, ht1⟩, ⟨q1, hq1⟩, n1⟩ := h2
  obtain ⟨a0, b0, ⟨t0, ht0⟩, ⟨q0, hq0⟩, n0⟩ := hab
  exact ⟨fun u h => a1 (a0 h), fun u h => b1 (b0 h),
    ⟨t0 ++ t1, by rw [ht1, ht0, List.append_assoc]⟩,
    ⟨q0 ++ q1, by rw [hq1, hq0, List.append_assoc]⟩,
    fun h => n1 (n0 h)⟩

/-- The fetch-trace invariant behind the no-refetch guarantee: no URL was
handed to the fetch collaborator twice, and every fetched URL has been
recorded in the shared visited set. -/
def TraceInv (st : CrawlState) : Prop :=
  st.fetchTrace.Nodup ∧ ∀ u ∈ st.fetchTrace, u ∈ st.globalCrawledUrls

/-- Invariant of a flat output list under construction: identifiers are
pairwise distinct, admitted to the shared seen-set, and none of them was
already seen when the subtree rooted at the original call started (`s0`). -/
def FlatInv (s0 seen : List String) (flat : List ProcessedResource) : Prop :=
  (flat.map ProcessedResource.resource_name).Nodup ∧
  ∀ n ∈ flat.map ProcessedResource.resource_name, n ∈ seen ∧ n ∉ s0

lemma FlatInv.mono {s0 seen seen1 : List String} {flat : List ProcessedResource}
    (hsub : seen ⊆ seen1) (h : FlatInv s0 seen flat) : FlatInv s0 seen1 flat :=
  ⟨h.1, fun n hn => ⟨hsub (h.2 n hn).1, (h.2 n hn).2⟩⟩

lemma FlatInv.append {s0 seen seen1 : List String}
    {flat more : List ProcessedResource}
    (h1 : FlatInv s0 seen flat) (hsub : seen ⊆ seen1)
    (h2 : (more.map ProcessedResource.resource_name).Nodup)
    (h3 : ∀ n ∈ more.map ProcessedResource.resource_name, n ∈ seen1 ∧ n ∉ seen)
    (hs0 : s0 ⊆ seen) : FlatInv s0 seen1 (flat ++ more) := by
  refine ⟨?_, ?_⟩
  · rw [List.map_append]
    refine List.Nodup.append h1.1 h2 ?_
    intro n hn hn2
    exact (h3 n hn2).2 ((h1.2 n hn).1)
  · intro n hn
    rw [List.map_append, List.mem_append] at hn
    rcases hn with hn | hn
    · exact ⟨hsub (h1.2 n hn).1, (h1.2 n hn).2⟩
    · exact ⟨(h3 n hn).1, fun hc => (h3 n hn).2 (hs0 hc)⟩

/-- Markdown content of the page behind `u`, as the ranker would see it. -/
def pageMarkdown (env : Env) (u : String) : String :=
  (env.fetch u).markdown.getD ""

/-- The secondary links actually followed from page `p`: the ranker output on
the fetched content, capped at `maxSecondaryLinks`. -/
def followedLinks (env : Env) (maxSecondaryLinks : Nat) (p : String) : List String :=
  (rank_pages_for_secondary_crawl env (pageMarkdown env p)).take maxSecondaryLinks

/-- The URL `v` is reachable from `u` by at most `n` hops along followed
secondary links. -/
inductive ReachesWithin (env : Env) (maxSecondaryLinks : Nat) :
    Nat → String → String → Prop where
  | base (n : Nat) (u : String) : ReachesWithin env maxSecondaryLinks n u u
  | step {p u2 v : String} {n : Nat}
      (h1 : u2 ∈ followedLinks env maxSecondaryLinks p)
      (h2 : ReachesWithin env maxSecondaryLinks n u2 v) :
      ReachesWithin env maxSecondaryLinks (n + 1) p v

/-- Everything one recursive call of `fetch_and_process_page` guarantees about
its output and its effect on the shared state:
state growth, every new fetch within `budget` hops of the call URL,
preservation of the no-refetch trace invariant when the fetch collaborator is
redirect-free, and freshness/duplicate-freeness of the flat output list. -/
def FappOut (env : Env) (maxSecondaryLinks : Nat) (url : String) (budget : Nat)
    (st : CrawlState) (out : Except PyErr FAPResult × CrawlState) : Prop :=
  GrowsTo st out.2 ∧
  (∃ t, out.2.fetchTrace = st.fetchTrace ++ t ∧
    ∀ u ∈ t, ReachesWithin env maxSecondaryLinks budget url u) ∧
  ((∀ u, (env.fetch u).url = u) → TraceInv st → TraceInv out.2) ∧
  (∀ res, out.1 = Except.ok res →
    FlatInv st.seenResourceIdentifiers out.2.seenResourceIdentifiers res.resources)

/-- Effect of the per-resource loop on the seen-set and the flat list:
the seen-set only grows and the flat-list invariant is maintained (each
admitted record was fresh and is registered before being appended). -/
lemma processResourcesLoop_spec (env : Env) (url resultUrl : String) :
    ∀ (rs : List Resource) (dict : RDict) (seen : List String)
      (flat : List ProcessedResource) (lv : Option (String × ProcessedResource))
      (dict1 : RDict) (seen1 : List String) (flat1 : List ProcessedResource)
      (lv1 : Option (String × ProcessedResource)) (s0 : List String),
    processResourcesLoop env url resultUrl rs dict seen flat lv =
      Except.ok (dict1, seen1, flat1, lv1) →
    s0 ⊆ seen → FlatInv s0 seen flat →
    seen ⊆ seen1 ∧ FlatInv s0 seen1 flat1 := by
  intro rs
  induction rs with
  | nil =>
    intro dict seen flat lv dict1 seen1 flat1 lv1 s0 h hs0 hinv
    simp only [processResourcesLoop, Except.ok.injEq, Prod.mk.injEq] at h
    obtain ⟨-, h2, h3, -⟩ := h
    subst h2 h3
    exact ⟨fun _ hx => hx, hinv⟩
  | cons r rest ih =>
    intro dict seen flat lv dict1 seen1 flat1 lv1 s0 h hs0 hinv
    rw [processResourcesLoop] at h
    cases hc : env.classifyDetail r with
    | none => rw [hc] at h; exact absurd h (by simp)
    | some cs =>
      obtain ⟨cat, subcat⟩ := cs
      rw [hc] at h
      simp only [] at h
      by_cases hdup : is_duplicate_resource r.resource_name seen = true
      · rw [if_pos hdup] at h
        exact ih _ _ _ _ _ _ _ _ _ h hs0 hinv
      · rw [if_neg hdup] at h
        have hnotin : r.resource_name ∉ seen := by
          simpa [is_duplicate_resource] using hdup
        have hs0n : s0 ⊆ seen ++ [r.resource_name] :=
          fun x hx => List.mem_append_left _ (hs0 hx)
        have hinv1 : FlatInv s0 (seen ++ [r.resource_name])
            (flat ++ [⟨r.resource_name, url, netlocOf resultUrl, cat, subcat,
              env.classifyTags r⟩]) := by
          refine FlatInv.append hinv (fun x hx => List.mem_append_left _ hx) ?_ ?_ hs0
          · simp
          · intro n hn
            simp only [List.map_cons, List.map_nil, List.mem_singleton] at hn
            subst hn
            exact ⟨List.mem_append_right _ (List.mem_singleton.mpr rfl), hnotin⟩
        have := ih _ _ _ _ _ _ _ _ _ h hs0n hinv1
        exact ⟨fun x hx => this.1 (List.mem_append_left _ hx), this.2⟩

/-- Guarantees of the secondary-crawl loop, with `budget + 1` hops available
from the parent URL (one hop to a ranked link plus the child budget). -/
def SecondariesOut (env : Env) (maxSecondaryLinks liftedBudget : Nat) (url : String)
    (flat : List ProcessedResource) (st : CrawlState)
    (out : Except PyErr (List ProcessedResource × Option RDict) × CrawlState) : Prop :=
  GrowsTo st out.2 ∧
  (∃ t, out.2.fetchTrace = st.fetchTrace ++ t ∧
    ∀ u ∈ t, ReachesWithin env maxSecondaryLinks liftedBudget url u) ∧
  ((∀ u, (env.fetch u).url = u) → TraceInv st → TraceInv out.2) ∧
  (∀ flatF dictF s0, out.1 = Except.ok (flatF, dictF) →
    s0 ⊆ st.seenResourceIdentifiers →
    FlatInv s0 st.seenResourceIdentifiers flat →
    FlatInv s0 out.2.seenResourceIdentifiers flatF)

lemma processSecondaries_spec (env : Env) (ms budget : Nat) (url : String)
    (recurse : String → CrawlState → Except PyErr FAPResult × CrawlState)
    (lastVars : Option (String × ProcessedResource))
    (Hrec : ∀ u s, FappOut env ms u budget s (recurse u s)) :
    ∀ (urls : List String) (flat : List ProcessedResource)
      (dictOpt : Option RDict) (st : CrawlState),
    (∀ u ∈ urls, u ∈ followedLinks env ms url) →
    SecondariesOut env ms (budget + 1) url flat st
      (processSecondaries recurse lastVars urls flat dictOpt st) := by
  intro urls
  induction urls with
  | nil =>
    intro flat dictOpt st _
    rw [processSecondaries]
    refine ⟨GrowsTo.rfl st, ⟨[], by simp, by simp⟩, fun _ h => h, ?_⟩
    intro flatF dictF s0 h hs0 hinv
    simp only [Except.ok.injEq, Prod.mk.injEq] at h
    rw [← h.1]
    exact hinv
  | cons u rest ih =>
    intro flat dictOpt st hurls
    have hu : u ∈ followedLinks env ms url := hurls u (List.mem_cons_self u rest)
    have hrest : ∀ v ∈ rest, v ∈ followedLinks env ms url :=
      fun v hv => hurls v (List.mem_cons_of_mem u hv)
    rw [processSecondaries]
    rcases hru : recurse u st with ⟨r1, stA⟩
    have hrec := Hrec u st
    rw [hru] at hrec
    obtain ⟨hgrow, ⟨tA, htA, hreachA⟩, htrace, hflatA⟩ := hrec
    -- lift the child reachability one hop
    have hreachA1 : ∀ v ∈ tA, ReachesWithin env ms (budget + 1) url v :=
      fun v hv => ReachesWithin.step hu (hreachA v hv)
    cases r1 with
    | error e =>
      refine ⟨hgrow, ⟨tA, htA, hreachA1⟩, htrace, ?_⟩
      intro flatF dictF s0 h
      exact absurd h (by simp)
    | ok child =>
      have hchild : ∀ s0, s0 ⊆ st.seenResourceIdentifiers →
          FlatInv s0 st.seenResourceIdentifiers flat →
          FlatInv s0 stA.seenResourceIdentifiers (flat ++ child.resources) := by
        intro s0 hs0 hinv
        have hc := hflatA child rfl
        exact FlatInv.append hinv hgrow.2.1 hc.1
          (fun n hn => ⟨(hc.2 n hn).1, (hc.2 n hn).2⟩) hs0
      have hcomp : ∀ (flat1 : List ProcessedResource) (dictOpt1 : Option RDict),
          (∀ s0, s0 ⊆ st.seenResourceIdentifiers →
            FlatInv s0 st.seenResourceIdentifiers flat →
            FlatInv s0 stA.seenResourceIdentifiers flat1) →
          SecondariesOut env ms (budget + 1) url flat st
            (processSecondaries recurse lastVars rest flat1 dictOpt1 stA) := by
        intro flat1 dictOpt1 hflat1
        obtain ⟨hgrowB, ⟨tB, htB, hreachB⟩, htraceB, hflatB⟩ := ih flat1 dictOpt1 stA hrest
        refine ⟨hgrow.trans hgrowB, ⟨tA ++ tB, ?_, ?_⟩, ?_, ?_⟩
        · rw [htB, htA, List.append_assoc]
        · intro v hv
          rcases List.mem_append.mp hv with hv | hv
          · exact hreachA1 v hv
          · exact hreachB v hv
        · exact fun hcanon hinv => htraceB hcanon (htrace hcanon hinv)
        · intro flatF dictF s0 h hs0 hinv
          refine hflatB flatF dictF s0 h ?_ ?_
          · exact fun x hx => hgrow.2.1 (hs0 hx)
          · exact hflat1 s0 hs0 hinv
      dsimp only
      by_cases hemp : child.resources.isEmpty = true
      · rw [if_pos hemp]
        refine hcomp flat child.resourcesDict ?_
        intro s0 hs0 hinv
        exact (hinv.mono hgrow.2.1)
      · rw [if_neg hemp]
        cases lastVars with
        | none =>
          refine ⟨hgrow, ⟨tA, htA, hreachA1⟩, htrace, ?_⟩
          intro flatF dictF s0 h
          exact absurd h (by simp)
        | some rv =>
          obtain ⟨rid, nrd⟩ := rv
          cases hdict : child.resourcesDict with
          | none =>
            refine ⟨hgrow, ⟨tA, htA, hreachA1⟩, htrace, ?_⟩
            intro flatF dictF s0 h
            exact absurd h (by simp)
          | some d =>
            exact hcomp (flat ++ child.resources)
              (some (dictExtendKeys d rid careResourceFieldNames)) hchild

lemma flatInv_nil (s0 seen : List String) : FlatInv s0 seen [] :=
  ⟨List.nodup_nil, by simp⟩

lemma TraceInv.fetchStep {st st1 : CrawlState} {url canon : String}
    (hg : st1.globalCrawledUrls = addSet st.globalCrawledUrls canon)
    (ht : st1.fetchTrace = st.fetchTrace ++ [url])
    (hnotg : url ∉ st.globalCrawledUrls)
    (hcanon : canon = url)
    (hinv : TraceInv st) : TraceInv st1 := by
  rw [hcanon] at hg
  constructor
  · rw [ht]
    refine List.Nodup.append hinv.1 (List.nodup_singleton url) ?_
    intro a ha hb
    rw [List.mem_singleton] at hb
    subst hb
    exact hnotg (hinv.2 a ha)
  · intro v hv
    rw [ht, List.mem_append] at hv
    rw [hg]
    rcases hv with hv | hv
    · exact subset_addSet _ _ (hinv.2 v hv)
    · rw [List.mem_singleton] at hv
      subst hv
      exact mem_addSet_self _ _

lemma rankerDecision_of_cond (env : Env) (md : String) (rs : List Resource)
    (d m : Nat) (h : secondaryCrawlCond rs d m = true) :
    rankerDecision env md rs d m = (some (rank_pages_for_secondary_crawl env md), true) := by
  rw [rankerDecision, if_pos h]

lemma rankerDecision_of_not_cond (env : Env) (md : String) (rs : List Resource)
    (d m : Nat) (h : ¬ secondaryCrawlCond rs d m = true) :
    rankerDecision env md rs d m = (none, false) := by
  rw [rankerDecision, if_neg h]

/-- Master invariant of the Recursive Page Processor: every call (with the
defaulted accumulator arguments, which is how all call sites invoke it)
satisfies `FappOut` with hop budget `maxDepth - currentDepth`. -/
lemma fetch_and_process_page_spec (env : Env) :
    ∀ (fuel : Nat) (url : String) (rk : List String) (d m ms : Nat)
      (prov : Option Provider) (st : CrawlState),
    FappOut env ms url (m - d) st
      (fetch_and_process_page env fuel url rk d m ms none none prov st) := by
  intro fuel
  induction fuel with
  | zero =>
    intro url rk d m ms prov st
    rw [fetch_and_process_page]
    exact ⟨GrowsTo.rfl st, ⟨[], by simp, by simp⟩, fun _ h => h,
      fun res h => absurd h (by simp)⟩
  | succ fuel ih =>
    intro url rk d m ms prov st
    rw [fetch_and_process_page]
    dsimp only
    by_cases hg1 : url ∈ st.globalCrawledUrls
    · rw [if_pos hg1]
      refine ⟨GrowsTo.rfl st, ⟨[], by simp, by simp⟩, fun _ h => h, ?_⟩
      intro res h
      injection h with h
      rw [← h]
      exact flatInv_nil _ _
    · rw [if_neg hg1]
      by_cases hg2 : m < d
      · rw [if_pos hg2]
        refine ⟨GrowsTo.rfl st, ⟨[], by simp, by simp⟩, fun _ h => h, ?_⟩
        intro res h
        injection h with h
        rw [← h]
        exact flatInv_nil _ _
      · rw [if_neg hg2]
        rw [safe_arun_three]
        dsimp only
        simp only [Option.getD_none]
        by_cases hfail :
            (!(env.fetch url).success || (env.fetch url).markdown.getD "" == "") = true
        · rw [if_pos hfail]
          refine ⟨?_, ⟨[url], by simp, ?_⟩, ?_, ?_⟩
          · exact ⟨subset_addSet _ _, fun _ h => h, ⟨[url], by simp⟩, ⟨[], by simp⟩,
              fun h => nodup_addSet _ _ h⟩
          · intro v hv
            rw [List.mem_singleton] at hv
            subst hv
            exact ReachesWithin.base _ _
          · intro hcanon hinv
            exact TraceInv.fetchStep rfl (by simp) hg1 (hcanon url) hinv
          · intro res h
            injection h with h
            rw [← h]
            exact flatInv_nil _ _
        · rw [if_neg hfail]
          split
          · -- provider extraction raised AttributeError
            refine ⟨?_, ⟨[url], by simp, ?_⟩, ?_, ?_⟩
            · exact ⟨subset_addSet _ _, fun _ h => h, ⟨[url], by simp⟩, ⟨[], by simp⟩,
                fun h => nodup_addSet _ _ h⟩
            · intro v hv
              rw [List.mem_singleton] at hv
              subst hv
              exact ReachesWithin.base _ _
            · intro hcanon hinv
              exact TraceInv.fetchStep rfl (by simp) hg1 (hcanon url) hinv
            · intro res h
              exact absurd h (by simp)
          · -- provider available
            rename_i provider hpe
            cases hres : env.extractResources ((env.fetch url).markdown.getD "") with
            | none =>
              refine ⟨?_, ⟨[url], by simp, ?_⟩, ?_, ?_⟩
              · exact ⟨subset_addSet _ _, fun _ h => h, ⟨[url], by simp⟩, ⟨[], by simp⟩,
                  fun h => nodup_addSet _ _ h⟩
              · intro v hv
                rw [List.mem_singleton] at hv
                subst hv
                exact ReachesWithin.base _ _
              · intro hcanon hinv
                exact TraceInv.fetchStep rfl (by simp) hg1 (hcanon url) hinv
              · intro res h
                exact absurd h (by simp)
            | some resources =>
              dsimp only
              by_cases hcond :
                  secondaryCrawlCond resources d m = true
              · rw [rankerDecision_of_cond env _ _ _ _ hcond]
                simp only [eq_self_iff_true, if_true, Option.getD_some,
                  List.replicate_one, Bool.true_and]
                have hdm : d < m := by
                  have h2 := hcond
                  rw [secondaryCrawlCond, Bool.and_eq_true] at h2
                  exact of_decide_eq_true h2.2
                have hbudget : (m - (d + 1)) + 1 = m - d := by omega
                split
                · -- classification raised inside the per-resource loop
                  refine ⟨?_, ⟨[url], by simp, ?_⟩, ?_, ?_⟩
                  · exact ⟨subset_addSet _ _, fun _ h => h, ⟨[url], by simp⟩,
                      ⟨[(env.fetch url).markdown.getD ""], rfl⟩,
                      fun h => nodup_addSet _ _ h⟩
                  · intro v hv
                    rw [List.mem_singleton] at hv
                    subst hv
                    exact ReachesWithin.base _ _
                  · intro hcanon hinv
                    exact TraceInv.fetchStep rfl rfl hg1 (hcanon url) hinv
                  · intro res h
                    exact absurd h (by simp)
                · -- per-resource loop succeeded
                  rename_i dict1 seen1 flat1 lastVars hloop
                  have hl := processResourcesLoop_spec env url (env.fetch url).url
                    resources [] st.seenResourceIdentifiers [] none dict1 seen1 flat1
                    lastVars st.seenResourceIdentifiers hloop (fun _ hx => hx)
                    (flatInv_nil _ _)
                  obtain ⟨hseensub, hflatinv⟩ := hl
                  by_cases hsecOn :
                      (!(rank_pages_for_secondary_crawl env
                          ((env.fetch url).markdown.getD "")).isEmpty
                        && decide (d < m)) = true
                  · rw [if_pos hsecOn]
                    have hspec := processSecondaries_spec env ms (m - (d + 1)) url
                      (fun u s => fetch_and_process_page env fuel u rk (d + 1) m ms
                        none none provider s)
                      lastVars
                      (fun u s => ih u rk (d + 1) m ms provider s)
                      (List.take ms (rank_pages_for_secondary_crawl env
                        ((env.fetch url).markdown.getD "")))
                      flat1 (some dict1)
                      { globalCrawledUrls := addSet st.globalCrawledUrls (env.fetch url).url,
                        seenResourceIdentifiers := seen1,
                        fetchTrace := st.fetchTrace ++ [url],
                        rankerTrace := st.rankerTrace ++ [(env.fetch url).markdown.getD ""] }
                      (fun v hv => hv)
                    rw [hbudget] at hspec
                    split
                    · -- a secondary child raised
                      rename_i e st4 hsec
                      rw [hsec] at hspec
                      obtain ⟨hgrowB, ⟨tB, htB, hreachB⟩, htiB, -⟩ := hspec
                      refine ⟨?_, ⟨url :: tB, ?_, ?_⟩, ?_, ?_⟩
                      · refine GrowsTo.trans ?_ hgrowB
                        exact ⟨subset_addSet _ _, hseensub, ⟨[url], by simp⟩,
                          ⟨[(env.fetch url).markdown.getD ""], rfl⟩,
                          fun h => nodup_addSet _ _ h⟩
                      · rw [htB]
                        simp
                      · intro v hv
                        rcases List.mem_cons.mp hv with hv | hv
                        · subst hv
                          exact ReachesWithin.base _ _
                        · exact hreachB v hv
                      · intro hcanon hinv
                        exact htiB hcanon
                          (TraceInv.fetchStep rfl rfl hg1 (hcanon url) hinv)
                      · intro res h
                        exact absurd h (by simp)
                    · -- the secondary loop finished
                      rename_i flatF dictF st4 hsec
                      rw [hsec] at hspec
                      obtain ⟨hgrowB, ⟨tB, htB, hreachB⟩, htiB, hflB⟩ := hspec
                      have hgrowA : GrowsTo st
                          { globalCrawledUrls := addSet st.globalCrawledUrls (env.fetch url).url,
                            seenResourceIdentifiers := seen1,
                            fetchTrace := st.fetchTrace ++ [url],
                            rankerTrace :=
                              st.rankerTrace ++ [(env.fetch url).markdown.getD ""] } :=
                        ⟨subset_addSet _ _, hseensub, ⟨[url], by simp⟩,
                          ⟨[(env.fetch url).markdown.getD ""], rfl⟩,
                          fun h => nodup_addSet _ _ h⟩
                      have hflatF : FlatInv st.seenResourceIdentifiers
                          st4.seenResourceIdentifiers flatF :=
                        hflB flatF dictF st.seenResourceIdentifiers rfl hseensub hflatinv
                      have hgrowAll : GrowsTo st st4 := hgrowA.trans hgrowB
                      have htrAll : ∃ t, st4.fetchTrace = st.fetchTrace ++ t ∧
                          ∀ v ∈ t, ReachesWithin env ms (m - d) url v := by
                        refine ⟨url :: tB, by rw [htB]; simp, ?_⟩
                        intro v hv
                        rcases List.mem_cons.mp hv with hv | hv
                        · subst hv
                          exact ReachesWithin.base _ _
                        · exact hreachB v hv
                      have htiAll : (∀ u, (env.fetch u).url = u) → TraceInv st →
                          TraceInv st4 := fun hcanon hinv =>
                        htiB hcanon (TraceInv.fetchStep rfl rfl hg1 (hcanon url) hinv)
                      by_cases hfe : flatF.isEmpty = true
                      · rw [if_pos hfe]
                        refine ⟨hgrowAll, htrAll, htiAll, ?_⟩
                        intro res h
                        injection h with h
                        rw [← h]
                        exact flatInv_nil _ _
                      · rw [if_neg hfe]
                        cases provider with
                        | none =>
                          exact ⟨hgrowAll, htrAll, htiAll, fun res h => absurd h (by simp)⟩
                        | some p =>
                          refine ⟨hgrowAll, htrAll, htiAll, ?_⟩
                          intro res h
                          injection h with h
                          rw [← h]
                          exact hflatF
                  · rw [if_neg hsecOn]
                    dsimp only
                    have hgrow3 : GrowsTo st
                        { globalCrawledUrls := addSet st.globalCrawledUrls (env.fetch url).url,
                          seenResourceIdentifiers := seen1,
                          fetchTrace := st.fetchTrace ++ [url],
                          rankerTrace :=
                            st.rankerTrace ++ [(env.fetch url).markdown.getD ""] } :=
                      ⟨subset_addSet _ _, hseensub, ⟨[url], by simp⟩,
                        ⟨[(env.fetch url).markdown.getD ""], rfl⟩,
                        fun h => nodup_addSet _ _ h⟩
                    have htr3 : ∃ t, st.fetchTrace ++ [url] = st.fetchTrace ++ t ∧
                        ∀ v ∈ t, ReachesWithin env ms (m - d) url v := by
                      refine ⟨[url], rfl, ?_⟩
                      intro v hv
                      rw [List.mem_singleton] at hv
                      subst hv
                      exact ReachesWithin.base _ _
                    by_cases hfe : flat1.isEmpty = true
                    · rw [if_pos hfe]
                      refine ⟨hgrow3, htr3, ?_, ?_⟩
                      · intro hcanon hinv
                        exact TraceInv.fetchStep rfl rfl hg1 (hcanon url) hinv
                      · intro res h
                        injection h with h
                        rw [← h]
                        exact flatInv_nil _ _
                    · rw [if_neg hfe]
                      cases provider with
                      | none =>
                        refine ⟨hgrow3, htr3, ?_, fun res h => absurd h (by simp)⟩
                        intro hcanon hinv
                        exact TraceInv.fetchStep rfl rfl hg1 (hcanon url) hinv
                      | some p =>
                        refine ⟨hgrow3, htr3, ?_, ?_⟩
                        · intro hcanon hinv
                          exact TraceInv.fetchStep rfl rfl hg1 (hcanon url) hinv
                        · intro res h
                          injection h with h
                          rw [← h]
                          exact hflatinv
              · rw [rankerDecision_of_not_cond env _ _ _ _ hcond]
                simp only [Bool.false_eq_true, if_false, Option.getD_none,
                  List.replicate_one, Bool.false_and]
                split
                · -- classification raised inside the per-resource loop
                  refine ⟨?_, ⟨[url], by simp, ?_⟩, ?_, ?_⟩
                  · exact ⟨subset_addSet _ _, fun _ h => h, ⟨[url], by simp⟩,
                      ⟨[], by simp⟩, fun h => nodup_addSet _ _ h⟩
                  · intro v hv
                    rw [List.mem_singleton] at hv
                    subst hv
                    exact ReachesWithin.base _ _
                  · intro hcanon hinv
                    exact TraceInv.fetchStep rfl rfl hg1 (hcanon url) hinv
                  · intro res h
                    exact absurd h (by simp)
                · rename_i dict1 seen1 flat1 lastVars hloop
                  have hl := processResourcesLoop_spec env url (env.fetch url).url
                    resources [] st.seenResourceIdentifiers [] none dict1 seen1 flat1
                    lastVars st.seenResourceIdentifiers hloop (fun _ hx => hx)
                    (flatInv_nil _ _)
                  obtain ⟨hseensub, hflatinv⟩ := hl
                  have hgrow3 : GrowsTo st
                      { globalCrawledUrls := addSet st.globalCrawledUrls (env.fetch url).url,
                        seenResourceIdentifiers := seen1,
                        fetchTrace := st.fetchTrace ++ [url],
                        rankerTrace := st.rankerTrace } :=
                    ⟨subset_addSet _ _, hseensub, ⟨[url], by simp⟩, ⟨[], by simp⟩,
                      fun h => nodup_addSet _ _ h⟩
                  have htr3 : ∃ t, st.fetchTrace ++ [url] = st.fetchTrace ++ t ∧
                      ∀ v ∈ t, ReachesWithin env ms (m - d) url v := by
                    refine ⟨[url], rfl, ?_⟩
                    intro v hv
                    rw [List.mem_singleton] at hv
                    subst hv
                    exact ReachesWithin.base _ _
                  by_cases hfe : flat1.isEmpty = true
                  · rw [if_pos hfe]
                    refine ⟨hgrow3, htr3, ?_, ?_⟩
                    · intro hcanon hinv
                      exact TraceInv.fetchStep rfl rfl hg1 (hcanon url) hinv
                    · intro res h
                      injection h with h
                      rw [← h]
                      exact flatInv_nil _ _
                  · rw [if_neg hfe]
                    cases provider with
                    | none =>
                      refine ⟨hgrow3, htr3, ?_, fun res h => absurd h (by simp)⟩
                      intro hcanon hinv
                      exact TraceInv.fetchStep rfl rfl hg1 (hcanon url) hinv
                    | some p =>
                      refine ⟨hgrow3, htr3, ?_, ?_⟩
                      · intro hcanon hinv
                        exact TraceInv.fetchStep rfl rfl hg1 (hcanon url) hinv
                      · intro res h
                        injection h with h
                        rw [← h]
                        exact hflatinv

/-! ## Concrete scenarios -/

/-- The all-empty initial crawl state of a fresh job. -/
def stEmpty : CrawlState := ⟨[], [], [], []⟩

/-- A generic extracted provider used by the scenarios. -/
def provB : Provider := ⟨some "Prov", none, []⟩

/-- The exact rate-limit failure a Groq-throttled fetch reports. -/
def rlAttempts : Nat → FetchResult := fun _ =>
  ⟨false, "U", none,
    some "Rate limit reached for model `deepseek-r1-distill-llama-70b`, please try again"⟩

/-- Scenario for the secondary-crawl trigger: page `P` yields one candidate
whose every attribute is absent, so `is_missing_too_many_fields` is true. -/
def envC1 : Env where
  fetch u := if u == "P" then ⟨true, "P", some "mP", none⟩ else ⟨false, u, none, some "404"⟩
  extractProvider md := if md == "mP" then some provB else none
  extractResources md := if md == "mP" then some [⟨"S", fun _ => Attr.null⟩] else none
  rankedUrls md := if md == "mP" then some ["S1"] else none
  classifyDetail _ := some ("Cat", "Sub")
  classifyTags _ := none
  mergeLLM _ _ _ := some []

/-- Redirect scenario: requested URL `A` canonicalises to `B`, and the ranker
proposes `A` itself as a secondary link. -/
def envC3 : Env where
  fetch u := if u == "A" then ⟨true, "B", some "mA", none⟩ else ⟨false, u, none, some "404"⟩
  extractProvider md := if md == "mA" then some provB else none
  extractResources md := if md == "mA" then some [] else none
  rankedUrls md := if md == "mA" then some ["A"] else none
  classifyDetail _ := some ("Cat", "Sub")
  classifyTags _ := none
  mergeLLM _ _ _ := some []

/-- Redirect-free environment: every URL is its own canonical URL. -/
def envIdem : Env where
  fetch u := ⟨true, u, some "mI", none⟩
  extractProvider md := if md == "mI" then some provB else none
  extractResources md := if md == "mI" then some [] else none
  rankedUrls _ := none
  classifyDetail _ := some ("Cat", "Sub")
  classifyTags _ := none
  mergeLLM _ _ _ := some []

/-- The end-to-end scenario of §8: seed `B` yields zero resources, the ranker
returns `[B1, B2]`, and `B1` yields the single complete resource
`"Meal Program"`. -/
def envC4 : Env where
  fetch u :=
    if u == "B" then ⟨true, "B", some "mdB", none⟩
    else if u == "B1" then ⟨true, "B1", some "mdB1", none⟩
    else if u == "B2" then ⟨true, "B2", some "mdB2", none⟩
    else ⟨false, u, none, some "404"⟩
  extractProvider md := if md == "mdB" then some provB else none
  extractResources md :=
    if md == "mdB" then some []
    else if md == "mdB1" then some [⟨"Meal Program", fun _ => Attr.str "x"⟩]
    else none
  rankedUrls md := if md == "mdB" then some ["B1", "B2"] else none
  classifyDetail _ := some ("Cat", "Sub")
  classifyTags _ := some "education"
  mergeLLM _ _ _ := some []

/-- Dedup scenario: page `W` yields the same candidate name twice. -/
def envC5 : Env where
  fetch u := if u == "W" then ⟨true, "W", some "mW", none⟩ else ⟨false, u, none, some "404"⟩
  extractProvider md := if md == "mW" then some provB else none
  extractResources md :=
    if md == "mW" then some [⟨"R1", fun _ => Attr.str "x"⟩, ⟨"R1", fun _ => Attr.str "x"⟩]
    else none
  rankedUrls _ := none
  classifyDetail _ := some ("Cat", "Sub")
  classifyTags _ := some "education"
  mergeLLM _ _ _ := some []

/-- The record produced from either `R1` candidate of `envC5`. -/
def resR1 : ProcessedResource := ⟨"R1", "W", "", "Cat", "Sub", some "education"⟩

/-- Bucket-merge scenario: page `P` has its own candidate `X` (incomplete but
not missing-too-many: 5 of 10 should-have fields present), which triggers a
secondary crawl of `Q`, and `Q` yields `Y`. -/
def attrsX : String → Attr := fun k =>
  if k == "location_state" || k == "description" || k == "time_slots" ||
     k == "age_range" || k == "target_audience" then Attr.str "v" else Attr.null

def envC7 : Env where
  fetch u :=
    if u == "P" then ⟨true, "P", some "mdP", none⟩
    else if u == "Q" then ⟨true, "Q", some "mdQ", none⟩
    else ⟨false, u, none, some "404"⟩
  extractProvider md := if md == "mdP" then some provB else none
  extractResources md :=
    if md == "mdP" then some [⟨"X", attrsX⟩]
    else if md == "mdQ" then some [⟨"Y", fun _ => Attr.str "x"⟩]
    else none
  rankedUrls md := if md == "mdP" then some ["Q"] else none
  classifyDetail _ := some ("Cat", "Sub")
  classifyTags _ := none
  mergeLLM _ _ _ := some []

/-- The records the `envC7` crawl produces for `X` (on page `P`) and `Y`
(on page `Q`). -/
def resXP : ProcessedResource := ⟨"X", "P", "", "Cat", "Sub", none⟩

def resYQ : ProcessedResource := ⟨"Y", "Q", "", "Cat", "Sub", none⟩

/-- Extraction-failure scenario: the fetch of `U` succeeds but the provider
extraction LLM call returns `None`. -/
def envC8 : Env where
  fetch u := if u == "U" then ⟨true, "U", some "m8", none⟩ else ⟨false, u, none, some "404"⟩
  extractProvider _ := none
  extractResources _ := none
  rankedUrls _ := none
  classifyDetail _ := some ("Cat", "Sub")
  classifyTags _ := none
  mergeLLM _ _ _ := some []

/-- Failing-fetch environment: every fetch fails outright. -/
def envFail : Env where
  fetch u := ⟨false, u, none, some "connection refused"⟩
  extractProvider _ := none
  extractResources _ := none
  rankedUrls _ := none
  classifyDetail _ := none
  classifyTags _ := none
  mergeLLM _ _ _ := none

/-- Merge-failure environment: the dedupe/enrich LLM call always fails. -/
def envC9 : Env where
  fetch u := ⟨false, u, none, some "404"⟩
  extractProvider _ := none
  extractResources _ := none
  rankedUrls _ := none
  classifyDetail _ := none
  classifyTags _ := none
  mergeLLM _ _ _ := none

/-! ## Claims -/

/-- C10: `is_complete_resource(record, requiredKeys)` returns true if and
only if every key in `requiredKeys` — whose default is the `REQUIRED_KEYS`
list name, resource type, description, source URL — is present on the record
with a non-empty, non-null value. -/
theorem c10_is_complete_resource_iff :
    REQUIRED_KEYS = ["name", "resource_type", "description", "source_url"] ∧
    ∀ (record : String → Attr) (required_keys : List String),
      is_complete_resource record required_keys = true ↔
        ∀ k ∈ required_keys, record k ≠ Attr.null ∧
          (∀ s, record k = Attr.str s → s ≠ "") ∧
          (∀ l, record k = Attr.list l → l ≠ []) := by
  refine ⟨rfl, ?_⟩
  intro record required_keys
  rw [is_complete_resource, List.all_eq_true]
  refine ⟨fun h k hk => ?_, fun h k hk => ?_⟩
  · have h2 := h k hk
    cases hv : record k with
    | null => rw [hv] at h2; simp [pyTruthy] at h2
    | str s =>
      rw [hv] at h2
      simp only [pyTruthy] at h2
      refine ⟨by simp, ?_, by simp⟩
      intro s2 hs2
      injection hs2 with hs2
      subst hs2
      intro he
      subst he
      simp at h2
    | list l =>
      rw [hv] at h2
      simp only [pyTruthy] at h2
      refine ⟨by simp, by simp, ?_⟩
      intro l2 hl2
      injection hl2 with hl2
      subst hl2
      intro he
      subst he
      simp at h2
  · have h2 := h k hk
    cases hv : record k with
    | null => exact absurd hv h2.1
    | str s =>
      have hs := h2.2.1 s hv
      simp [pyTruthy, hs]
    | list l =>
      have hl := h2.2.2 l hv
      simp [pyTruthy, hl]

/-- C2 (code bug): `safe_arun` never sleeps and never retries — for every
sequence of fetch outcomes and any positive retry budget it makes exactly one
`arun` call and returns the first attempt unchanged, because the rate-limit
signature (which contains capital letters) is matched against the LOWERCASED
error message and therefore never matches. -/
theorem c2_safe_arun_never_retries (attempts : Nat → FetchResult) (retries : Nat)
    (h : 1 ≤ retries) :
    safe_arun attempts retries = Except.ok (attempts 0, 1, []) := by
  cases retries with
  | zero => omega
  | succ n =>
    simp only [safe_arun, safeArunGo, rate_limit_match_false, Bool.false_eq_true, if_false]
    cases h2 : (attempts 0).success <;> simp [h2]

/-- C2 witness: on the exact Groq rate-limit failure message the wrapper
returns after a single attempt with no back-off sleeps. -/
theorem c2_witness :
    1 ≤ 3 ∧ safe_arun rlAttempts 3 = Except.ok (rlAttempts 0, 1, []) :=
  ⟨by decide, c2_safe_arun_never_retries rlAttempts 3 (by decide)⟩

/-- C9 (corrected): when the LLM merge call fails,
`dedupe_and_enrich_resources` returns `None` — not an empty list. -/
theorem c9_counterexample :
    dedupe_and_enrich_resources envC9 [BucketEntry.key "k"] "k" none = none ∧
    dedupe_and_enrich_resources envC9 [BucketEntry.key "k"] "k" none ≠
      some ([] : List ProcessedResource) := by
  refine ⟨rfl, ?_⟩
  intro h
  simp [dedupe_and_enrich_resources, envC9] at h

/-- C9 amended: `dedupe_and_enrich_resources` never raises (it is a total
function in the embedding) and converts any LLM merge failure into `None`. -/
theorem c9_merge_failure_returns_none (env : Env) (resources : List BucketEntry)
    (key : String) (provider : Option Provider)
    (h : env.mergeLLM resources key provider = none) :
    dedupe_and_enrich_resources env resources key provider = none := by
  rw [dedupe_and_enrich_resources]
  split
  · rfl
  · rw [h]

/-- C9 witness. -/
theorem c9_witness :
    envC9.mergeLLM [BucketEntry.key "k2"] "k2" none = none ∧
    dedupe_and_enrich_resources envC9 [BucketEntry.key "k2"] "k2" none = none :=
  ⟨rfl, c9_merge_failure_returns_none envC9 [BucketEntry.key "k2"] "k2" none rfl⟩

/-- C6: the depth guard and the depth bound.  (1) Any call at
`depth > maxDepth` returns the empty result immediately with the shared state
untouched (no fetch, given at least one unit of fuel).  (2) Every URL the
fetch collaborator is handed during a seed-level call (depth 0) was either
already in the trace or is reachable from the seed within `maxDepth` hops of
followed secondary links. -/
theorem c6_depth_bound (env : Env) (fuel : Nat) (url : String) (rk : List String)
    (m ms : Nat) (prov : Option Provider) (st : CrawlState) :
    (∀ d, m < d → 1 ≤ fuel →
      fetch_and_process_page env fuel url rk d m ms none none prov st =
        (Except.ok ⟨[], none, none⟩, st)) ∧
    (∀ u ∈ (fetch_and_process_page env fuel url rk 0 m ms none none prov st).2.fetchTrace,
      u ∈ st.fetchTrace ∨ ReachesWithin env ms m url u) := by
  constructor
  · intro d hd hf
    cases fuel with
    | zero => omega
    | succ n =>
      rw [fetch_and_process_page]
      dsimp only
      by_cases hg1 : url ∈ st.globalCrawledUrls
      · rw [if_pos hg1]
      · rw [if_neg hg1, if_pos hd]
  · intro u hu
    obtain ⟨-, ⟨t, ht, hreach⟩, -, -⟩ :=
      fetch_and_process_page_spec env fuel url rk 0 m ms prov st
    rw [ht, List.mem_append] at hu
    rcases hu with hu | hu
    · exact Or.inl hu
    · right
      have := hreach u hu
      rwa [Nat.sub_zero] at this

/-- C6 witness: a call two levels beyond `maxDepth = 1` returns the empty
triple and leaves the state untouched. -/
theorem c6_witness :
    fetch_and_process_page envC1 1 "X" REQUIRED_KEYS 2 1 3 none none none stEmpty =
      (Except.ok ⟨[], none, none⟩, stEmpty) :=
  (c6_depth_bound envC1 1 "X" REQUIRED_KEYS 1 3 none stEmpty).1 2 (by decide) (by decide)

/-- C5: the flat output list of any Page Processor call contains pairwise
distinct `resource_name` identifiers; each of them was admitted to the shared
`seen_resource_identifiers` set at the same step, and none of them was in
that set when the call started (first occurrence wins). -/
theorem c5_no_duplicate_identifiers (env : Env) (fuel : Nat) (url : String)
    (rk : List String) (d m ms : Nat) (prov : Option Provider) (st : CrawlState)
    (res : FAPResult)
    (h : (fetch_and_process_page env fuel url rk d m ms none none prov st).1 =
      Except.ok res) :
    (res.resources.map ProcessedResource.resource_name).Nodup ∧
    ∀ n ∈ res.resources.map ProcessedResource.resource_name,
      n ∈ (fetch_and_process_page env fuel url rk d m ms none none prov st).2.seenResourceIdentifiers ∧
      n ∉ st.seenResourceIdentifiers := by
  have hspec := fetch_and_process_page_spec env fuel url rk d m ms prov st
  exact hspec.2.2.2 res h

/-- C5 witness: a page whose extraction yields the same name twice produces a
flat list with a single record carrying that name. -/
theorem c5_witness :
    (([resR1].map ProcessedResource.resource_name).Nodup ∧
      ∀ n ∈ [resR1].map ProcessedResource.resource_name,
        n ∈ (fetch_and_process_page envC5 3 "W" REQUIRED_KEYS 0 1 3 none none none
              stEmpty).2.seenResourceIdentifiers ∧
        n ∉ stEmpty.seenResourceIdentifiers) :=
  c5_no_duplicate_identifiers envC5 3 "W" REQUIRED_KEYS 0 1 3 none stEmpty
    ⟨[resR1], some ⟨some "Prov", some "W", [resR1]⟩,
      some [("R1", [BucketEntry.res resR1, BucketEntry.res resR1])]⟩ (by decide)

/-- C3 counterexample: one job in which the fetch collaborator is invoked
twice for the same requested URL `A` — and hence twice for its canonical URL
`B` — because the visited set records only the canonical URL while the guard
checks the requested URL. -/
theorem c3_counterexample :
    (fetch_and_process_page envC3 3 "A" REQUIRED_KEYS 0 1 3 none none none
        stEmpty).2.fetchTrace = ["A", "A"] ∧
    (envC3.fetch "A").url = "B" ∧
    ¬ (fetch_and_process_page envC3 3 "A" REQUIRED_KEYS 0 1 3 none none none
        stEmpty).2.fetchTrace.Nodup := by
  refine ⟨rfl, rfl, ?_⟩
  intro h
  rw [show (fetch_and_process_page envC3 3 "A" REQUIRED_KEYS 0 1 3 none none none
      stEmpty).2.fetchTrace = ["A", "A"] from rfl] at h
  simp at h

/-- C3 amended: provided the fetch collaborator is redirect-free (the
canonical URL it returns is always the requested URL), no URL is handed to it
twice within one job — the fetch trace stays duplicate-free and covered by
`globallyCrawledUrls`, which itself stays duplicate-free. -/
theorem c3_no_refetch (env : Env) (fuel : Nat) (url : String) (rk : List String)
    (d m ms : Nat) (prov : Option Provider) (st : CrawlState)
    (hcanon : ∀ u, (env.fetch u).url = u)
    (hinv : TraceInv st) (hnodup : st.globalCrawledUrls.Nodup) :
    TraceInv (fetch_and_process_page env fuel url rk d m ms none none prov st).2 ∧
    (fetch_and_process_page env fuel url rk d m ms none none prov st).2.globalCrawledUrls.Nodup := by
  have hspec := fetch_and_process_page_spec env fuel url rk d m ms prov st
  exact ⟨hspec.2.2.1 hcanon hinv, hspec.1.2.2.2.2 hnodup⟩

/-- C3 witness: a redirect-free crawl from the empty state keeps the fetch
trace duplicate-free. -/
theorem c3_witness :
    TraceInv (fetch_and_process_page envIdem 3 "A" REQUIRED_KEYS 0 1 3 none none none
        stEmpty).2 ∧
    (fetch_and_process_page envIdem 3 "A" REQUIRED_KEYS 0 1 3 none none none
        stEmpty).2.globalCrawledUrls.Nodup :=
  c3_no_refetch envIdem 3 "A" REQUIRED_KEYS 0 1 3 none stEmpty (fun u => rfl)
    ⟨List.nodup_nil, by simp [stEmpty]⟩ List.nodup_nil

/-- C8 counterexample: a fetch that succeeds followed by a provider
extraction that yields no data makes the Page Processor raise
(`AttributeError` at `provider.website = result.url`) instead of returning an
empty result. -/
theorem c8_counterexample :
    (envC8.fetch "U").success = true ∧
    (fetch_and_process_page envC8 3 "U" REQUIRED_KEYS 0 1 3 none none none
        stEmpty).1 = Except.error PyErr.attributeError := ⟨rfl, rfl⟩

/-- C8 amended: per-URL FETCH failures are indeed converted by the processor
into an empty-result return; it is extraction failures that raise to the
Crawl Driver (where `crawl_resources` catches and logs them). -/
theorem c8_fetch_failure_contained (env : Env) (fuel : Nat) (url : String)
    (rk : List String) (d m ms : Nat) (prov : Option Provider) (st : CrawlState)
    (hg1 : url ∉ st.globalCrawledUrls) (hg2 : d ≤ m)
    (hfail : (env.fetch url).success = false ∨ (env.fetch url).markdown.getD "" = "") :
    (fetch_and_process_page env (fuel + 1) url rk d m ms none none prov st).1 =
      Except.ok ⟨[], none, none⟩ := by
  rw [fetch_and_process_page]
  dsimp only
  rw [if_neg hg1, if_neg (not_lt.mpr hg2), safe_arun_three]
  dsimp only
  have hcond : (!(env.fetch url).success || ((env.fetch url).markdown.getD "" == "")) = true := by
    rcases hfail with h | h
    · rw [h]
      rfl
    · rw [h]
      simp
  rw [if_pos hcond]

/-- C8 witness: a failing fetch yields the empty triple. -/
theorem c8_witness :
    (fetch_and_process_page envFail 3 "Z" REQUIRED_KEYS 0 1 3 none none none
        stEmpty).1 = Except.ok ⟨[], none, none⟩ :=
  c8_fetch_failure_contained envFail 2 "Z" REQUIRED_KEYS 0 1 3 none stEmpty
    (by simp [stEmpty]) (by decide) (Or.inl rfl)

/-- C4 (code bug): in the §8 end-to-end scenario the `B` subtree raises
`UnboundLocalError` at line 233 (the page `B` extracted zero resources, so
`resource_identifier` was never bound), the exception is caught by the Crawl
Driver, and the job ends with NO output rows — not with one row from `B1`.
`B` and `B1` do each appear exactly once in the shared visited set, and `B2`
is never fetched. -/
theorem c4_scenario :
    (crawl_resources envC4 5 ["B"]).allResources = [] ∧
    (crawl_resources envC4 5 ["B"]).errors = [("B", PyErr.unboundLocal)] ∧
    (crawl_resources envC4 5 ["B"]).state.globalCrawledUrls = ["B", "B1"] ∧
    (crawl_resources envC4 5 ["B"]).state.fetchTrace = ["B", "B1"] :=
  ⟨rfl, rfl, rfl, rfl⟩

/-- C7 (code bug): with one own candidate `X` on page `P` and one candidate
`Y` on the secondary page `Q`, the returned `mergedByKey` map is the CHILD
map with the bucket of `X` holding the 30 field-name strings of the last
dumped record — the observation of `X` made by the parent is gone, instead
of the child buckets being merged into those of the parent. -/
theorem c7_buckets_not_merged :
    (fetch_and_process_page envC7 3 "P" REQUIRED_KEYS 0 1 3 none none none
        stEmpty).1 =
      Except.ok ⟨[resXP, resYQ],
        some ⟨some "Prov", some "P", [resXP, resYQ]⟩,
        some [("Y", [BucketEntry.res resYQ]),
              ("X", careResourceFieldNames.map BucketEntry.key)]⟩ ∧
    ∀ bucket ∈ [("Y", [BucketEntry.res resYQ]),
        ("X", careResourceFieldNames.map BucketEntry.key)],
      BucketEntry.res resXP ∉ bucket.2 := by
  refine ⟨by decide, ?_⟩
  decide

/-- C1 counterexample: a page at depth 0 with `maxDepth = 1` whose single
extracted candidate has `is_missing_too_many_fields = true` does NOT invoke
the Secondary-Link Ranker (the ranker trace stays empty and no secondary
fetch happens), contrary to the claim. -/
theorem c1_counterexample :
    is_missing_too_many_fields (fun _ => Attr.null) = true ∧
    (0 : Nat) < 1 ∧
    (fetch_and_process_page envC1 3 "P" REQUIRED_KEYS 0 1 3 none none none
        stEmpty).2.rankerTrace = [] ∧
    (fetch_and_process_page envC1 3 "P" REQUIRED_KEYS 0 1 3 none none none
        stEmpty).2.fetchTrace = ["P"] :=
  ⟨by decide, by decide, rfl, rfl⟩

/-- C1 amended: on a successfully fetched and extracted page, the
Secondary-Link Ranker is invoked on the page content (and the secondary crawl
marked) exactly when `secondaryCrawlCond` holds: the candidate list is empty,
or some candidate is NEITHER complete (with the default `REQUIRED_KEYS`) NOR
missing-too-many-fields — all at `depth < maxDepth`. -/
theorem c1_ranker_trigger (env : Env) (fuel : Nat) (url : String) (rk : List String)
    (d m ms : Nat) (prov : Option Provider) (st : CrawlState)
    (resources : List Resource)
    (hg1 : url ∉ st.globalCrawledUrls) (hg2 : d ≤ m)
    (hok : (env.fetch url).success = true)
    (hmd : ((env.fetch url).markdown.getD "" == "") = false)
    (hprov : d = 0 → (env.extractProvider ((env.fetch url).markdown.getD "")).isSome = true)
    (hres : env.extractResources ((env.fetch url).markdown.getD "") = some resources) :
    (secondaryCrawlCond resources d m = true →
      ∃ q, (fetch_and_process_page env (fuel + 1) url rk d m ms none none prov
          st).2.rankerTrace =
        st.rankerTrace ++ (env.fetch url).markdown.getD "" :: q) ∧
    (secondaryCrawlCond resources d m = false →
      (fetch_and_process_page env (fuel + 1) url rk d m ms none none prov
          st).2.rankerTrace = st.rankerTrace) := by
  rw [fetch_and_process_page]
  dsimp only
  rw [if_neg hg1, if_neg (not_lt.mpr hg2), safe_arun_three]
  dsimp only
  have hfailF : ¬ ((!(env.fetch url).success ||
      ((env.fetch url).markdown.getD "" == "")) = true) := by
    rw [hok, hmd]
    simp
  rw [if_neg hfailF]
  by_cases hd0 : d = 0
  · rw [if_pos hd0]
    obtain ⟨p, hp⟩ := Option.isSome_iff_exists.mp (hprov hd0)
    rw [hp]
    dsimp only
    rw [hres]
    dsimp only
    constructor
    · intro hcondT
      rw [rankerDecision_of_cond env _ _ _ _ hcondT]
      simp only [eq_self_iff_true, if_true, Option.getD_some, List.replicate_one,
        Bool.true_and]
      split
      · exact ⟨[], rfl⟩
      · rename_i dict1 seen1 flat1 lastVars hloop
        by_cases hsecOn : (!(rank_pages_for_secondary_crawl env
            ((env.fetch url).markdown.getD "")).isEmpty && decide (d < m)) = true
        · rw [if_pos hsecOn]
          have hspec := processSecondaries_spec env ms (m - (d + 1)) url
            (fun u s => fetch_and_process_page env fuel u rk (d + 1) m ms
              none none (some (Provider.mk p.provider_name
                (some (env.fetch url).url) p.resources)) s)
            lastVars
            (fun u s => fetch_and_process_page_spec env fuel u rk (d + 1) m ms
              (some (Provider.mk p.provider_name
                (some (env.fetch url).url) p.resources)) s)
            (List.take ms (rank_pages_for_secondary_crawl env
              ((env.fetch url).markdown.getD "")))
            flat1 (some dict1)
            { globalCrawledUrls := addSet st.globalCrawledUrls (env.fetch url).url,
              seenResourceIdentifiers := seen1,
              fetchTrace := st.fetchTrace ++ [url],
              rankerTrace := st.rankerTrace ++ [(env.fetch url).markdown.getD ""] }
            (fun v hv => hv)
          split
          · rename_i e st4 hsec
            rw [hsec] at hspec
            obtain ⟨q, hq⟩ := hspec.1.2.2.2.1
            exact ⟨q, by rw [hq]; simp⟩
          · rename_i flatF dictF st4 hsec
            rw [hsec] at hspec
            obtain ⟨q, hq⟩ := hspec.1.2.2.2.1
            by_cases hfe : flatF.isEmpty = true
            · rw [if_pos hfe]
              exact ⟨q, by rw [hq]; simp⟩
            · rw [if_neg hfe]
              exact ⟨q, by rw [hq]; simp⟩
        · rw [if_neg hsecOn]
          dsimp only
          by_cases hfe : flat1.isEmpty = true
          · rw [if_pos hfe]
            exact ⟨[], rfl⟩
          · rw [if_neg hfe]
            exact ⟨[], rfl⟩
    · intro hcondF
      rw [rankerDecision_of_not_cond env _ _ _ _ (by simp [hcondF])]
      simp only [Bool.false_eq_true, if_false, Option.getD_none, List.replicate_one,
        Bool.false_and]
      split
      · rfl
      · rename_i dict1 seen1 flat1 lastVars hloop
        by_cases hfe : flat1.isEmpty = true
        · rw [if_pos hfe]
        · rw [if_neg hfe]
  · rw [if_neg hd0]
    dsimp only
    rw [hres]
    dsimp only
    constructor
    · intro hcondT
      rw [rankerDecision_of_cond env _ _ _ _ hcondT]
      simp only [eq_self_iff_true, if_true, Option.getD_some, List.replicate_one,
        Bool.true_and]
      split
      · exact ⟨[], rfl⟩
      · rename_i dict1 seen1 flat1 lastVars hloop
        by_cases hsecOn : (!(rank_pages_for_secondary_crawl env
            ((env.fetch url).markdown.getD "")).isEmpty && decide (d < m)) = true
        · rw [if_pos hsecOn]
          have hspec := processSecondaries_spec env ms (m - (d + 1)) url
            (fun u s => fetch_and_process_page env fuel u rk (d + 1) m ms
              none none prov s)
            lastVars
            (fun u s => fetch_and_process_page_spec env fuel u rk (d + 1) m ms prov s)
            (List.take ms (rank_pages_for_secondary_crawl env
              ((env.fetch url).markdown.getD "")))
            flat1 (some dict1)
            { globalCrawledUrls := addSet st.globalCrawledUrls (env.fetch url).url,
              seenResourceIdentifiers := seen1,
              fetchTrace := st.fetchTrace ++ [url],
              rankerTrace := st.rankerTrace ++ [(env.fetch url).markdown.getD ""] }
            (fun v hv => hv)
          split
          · rename_i e st4 hsec
            rw [hsec] at hspec
            obtain ⟨q, hq⟩ := hspec.1.2.2.2.1
            exact ⟨q, by rw [hq]; simp⟩
          · rename_i flatF dictF st4 hsec
            rw [hsec] at hspec
            obtain ⟨q, hq⟩ := hspec.1.2.2.2.1
            by_cases hfe : flatF.isEmpty = true
            · rw [if_pos hfe]
              exact ⟨q, by rw [hq]; simp⟩
            · rw [if_neg hfe]
              cases prov with
              | none => exact ⟨q, by rw [hq]; simp⟩
              | some p2 => exact ⟨q, by rw [hq]; simp⟩
        · rw [if_neg hsecOn]
          dsimp only
          by_cases hfe : flat1.isEmpty = true
          · rw [if_pos hfe]
            exact ⟨[], rfl⟩
          · rw [if_neg hfe]
            cases prov with
            | none => exact ⟨[], rfl⟩
            | some p2 => exact ⟨[], rfl⟩
    · intro hcondF
      rw [rankerDecision_of_not_cond env _ _ _ _ (by simp [hcondF])]
      simp only [Bool.false_eq_true, if_false, Option.getD_none, List.replicate_one,
        Bool.false_and]
      split
      · rfl
      · rename_i dict1 seen1 flat1 lastVars hloop
        by_cases hfe : flat1.isEmpty = true
        · rw [if_pos hfe]
        · rw [if_neg hfe]
          cases prov with
          | none => rfl
          | some p2 => rfl

/-- C1 witness: a page with one incomplete-but-dense candidate (5 of 10
should-have fields) at depth 0 with `maxDepth = 1` does trigger the ranker:
its content lands on the ranker trace. -/
theorem c1_witness :
    ∃ q, (fetch_and_process_page envC7 3 "P" REQUIRED_KEYS 0 1 3 none none none
        stEmpty).2.rankerTrace = stEmpty.rankerTrace ++ "mdP" :: q :=
  (c1_ranker_trigger envC7 2 "P" REQUIRED_KEYS 0 1 3 none stEmpty [⟨"X", attrsX⟩]
    (by simp [stEmpty]) (by decide) rfl rfl (fun _ => rfl) rfl).1 (by decide)
